import Mathlib

/-!
Verification of the offline tile cache-and-prefetch engine
(leaflet.offline.js): tile key derivation, the cache-aside
read/write protocol, bounding-box-to-tile enumeration, the batch
download progress reporting, and the IndexedDB manager.

Each section embeds one part of the source as Lean definitions;
the claim theorems follow at the end of the file.
-/

namespace TileCache

/-! ## Decimal rendering of tile coordinates

The source builds tile keys with JS template interpolation
(backtick strings), which renders nonnegative integers in decimal.
We model that rendering with a fuel-based digit list (fuel `n` is
enough since `n / 10` strictly decreases), and relate it to
`Nat.digits` to inherit its arithmetic lemmas. -/

/-- The character for one decimal digit. -/
def digitChar (d : ℕ) : Char := Char.ofNat (48 + d)

/-- Little-endian decimal digits of a number, with explicit fuel so the
definition is structurally recursive and kernel-reducible. -/
def digitsAscAux : ℕ → ℕ → List ℕ
  | _, 0 => []
  | 0, _ + 1 => []
  | f + 1, n + 1 => (n + 1) % 10 :: digitsAscAux f ((n + 1) / 10)

/-- Little-endian decimal digits of a number. -/
def natDigits (n : ℕ) : List ℕ := digitsAscAux n n

/-- Decimal rendering of a nonnegative integer as a list of characters,
as JS template interpolation prints tile coordinates. -/
def natStr (n : ℕ) : List Char :=
  if n = 0 then ['0'] else ((natDigits n).map digitChar).reverse

/-- Decimal rendering as a `String`. -/
def natToString (n : ℕ) : String := ⟨natStr n⟩

theorem digitsAscAux_eq_digits (f : ℕ) :
    ∀ n, n ≤ f → digitsAscAux f n = Nat.digits 10 n := by
  induction f with
  | zero =>
    intro n hn
    interval_cases n
    simp [digitsAscAux]
  | succ f ih =>
    intro n hn
    match n with
    | 0 => simp [digitsAscAux]
    | m + 1 =>
      have hdiv : (m + 1) / 10 ≤ f := by
        have h1 : (m + 1) / 10 < m + 1 := Nat.div_lt_self (Nat.succ_pos m) (by norm_num)
        omega
      rw [digitsAscAux, ih _ hdiv, ← Nat.digits_def' (b := 10) (by norm_num) (Nat.succ_pos m)]

theorem natDigits_eq_digits (n : ℕ) : natDigits n = Nat.digits 10 n :=
  digitsAscAux_eq_digits n n le_rfl

theorem natDigits_lt_ten (n d : ℕ) (hd : d ∈ natDigits n) : d < 10 := by
  rw [natDigits_eq_digits] at hd
  exact Nat.digits_lt_base (by norm_num) hd

theorem natDigits_injective (m n : ℕ) (h : natDigits m = natDigits n) : m = n := by
  rw [natDigits_eq_digits, natDigits_eq_digits] at h
  have := congrArg (Nat.ofDigits 10) h
  rwa [Nat.ofDigits_digits, Nat.ofDigits_digits] at this

theorem digitChar_ne_underscore (d : ℕ) (hd : d < 10) : digitChar d ≠ '_' := by
  interval_cases d <;> decide

theorem digitChar_inj_lt (d e : ℕ) (hd : d < 10) (he : e < 10)
    (h : digitChar d = digitChar e) : d = e := by
  interval_cases d <;> interval_cases e <;> first | rfl | exact absurd h (by decide)

/-- Characters that are not an underscore, as a Bool predicate. -/
def notUnd (c : Char) : Bool := c != '_'

/-- A character list free of underscores. -/
def underscoreFree (l : List Char) : Prop := ∀ c ∈ l, c ≠ '_'

theorem natStr_underscoreFree (n : ℕ) : underscoreFree (natStr n) := by
  intro c hc
  unfold natStr at hc
  by_cases hn : n = 0
  · simp [hn] at hc
    simp [hc]
  · simp [hn] at hc
    obtain ⟨d, hd, hcd⟩ := hc
    subst hcd
    exact digitChar_ne_underscore d (natDigits_lt_ten n d hd)

theorem map_digitChar_inj (l₁ l₂ : List ℕ)
    (h₁ : ∀ d ∈ l₁, d < 10) (h₂ : ∀ d ∈ l₂, d < 10)
    (h : l₁.map digitChar = l₂.map digitChar) : l₁ = l₂ := by
  induction l₁ generalizing l₂ with
  | nil => cases l₂ <;> simp_all
  | cons a l ih =>
    cases l₂ with
    | nil => simp_all
    | cons b l₂t =>
      simp only [List.map_cons, List.cons.injEq] at h
      have ha : a = b :=
        digitChar_inj_lt a b (h₁ a (by simp)) (h₂ b (by simp)) h.1
      have hl : l = l₂t :=
        ih l₂t (fun d hd => h₁ d (by simp [hd])) (fun d hd => h₂ d (by simp [hd])) h.2
      rw [ha, hl]

theorem natStr_ne_singleton_zero (n : ℕ) (hn : n ≠ 0) : natStr n ≠ ['0'] := by
  intro h
  unfold natStr at h
  simp [hn] at h
  have h2 : (natDigits n).map digitChar = ['0'] := by
    have := congrArg List.reverse h
    simpa using this
  match he : natDigits n with
  | [] =>
    rw [he] at h2
    simp at h2
  | d :: rest =>
    rw [he] at h2
    simp only [List.map_cons, List.cons.injEq] at h2
    obtain ⟨hd0, hrest⟩ := h2
    have hrest0 : rest = [] := List.map_eq_nil_iff.mp hrest
    have hdlt : d < 10 := natDigits_lt_ten n d (by rw [he]; simp)
    have hd : d = 0 := digitChar_inj_lt d 0 hdlt (by norm_num) (by rw [hd0]; rfl)
    have hofd : n = Nat.ofDigits 10 (Nat.digits 10 n) := (Nat.ofDigits_digits 10 n).symm
    rw [← natDigits_eq_digits, he, hrest0, hd] at hofd
    simp [Nat.ofDigits] at hofd
    exact hn hofd

theorem natStr_injective (m n : ℕ) (h : natStr m = natStr n) : m = n := by
  by_cases hm : m = 0 <;> by_cases hn : n = 0
  · omega
  · exfalso
    subst hm
    have : natStr 0 = ['0'] := rfl
    exact natStr_ne_singleton_zero n hn (h.symm.trans this)
  · exfalso
    subst hn
    have : natStr 0 = ['0'] := rfl
    exact natStr_ne_singleton_zero m hm (h.trans this)
  · unfold natStr at h
    simp [hm, hn] at h
    have h2 : (natDigits m).map digitChar = (natDigits n).map digitChar := by
      have := congrArg List.reverse h
      simpa using this
    exact natDigits_injective m n
      (map_digitChar_inj _ _ (natDigits_lt_ten m) (natDigits_lt_ten n) h2)

theorem takeWhile_underscoreFree (d rest : List Char) (hd : underscoreFree d) :
    (d ++ '_' :: rest).takeWhile notUnd = d
    ∧ (d ++ '_' :: rest).dropWhile notUnd = '_' :: rest := by
  induction d with
  | nil => simp [List.takeWhile, List.dropWhile, notUnd]
  | cons c d ih =>
    have hc : notUnd c = true := by
      have := hd c (by simp)
      simp [notUnd, this]
    have ihd : underscoreFree d := fun a ha => hd a (by simp [ha])
    obtain ⟨h1, h2⟩ := ih ihd
    constructor
    · simp only [List.cons_append, List.takeWhile_cons, hc, if_true, h1]
    · simp only [List.cons_append, List.dropWhile_cons, hc, if_true, h2]

theorem append_underscore_inj (a₁ a₂ d₁ d₂ : List Char)
    (h₁ : underscoreFree d₁) (h₂ : underscoreFree d₂)
    (h : a₁ ++ '_' :: d₁ = a₂ ++ '_' :: d₂) : a₁ = a₂ ∧ d₁ = d₂ := by
  have hrev : d₁.reverse ++ '_' :: a₁.reverse = d₂.reverse ++ '_' :: a₂.reverse := by
    have := congrArg List.reverse h
    simpa [List.reverse_append] using this
  have h₁r : underscoreFree d₁.reverse := fun c hc => h₁ c (List.mem_reverse.mp hc)
  have h₂r : underscoreFree d₂.reverse := fun c hc => h₂ c (List.mem_reverse.mp hc)
  have ht₁ := takeWhile_underscoreFree d₁.reverse a₁.reverse h₁r
  have ht₂ := takeWhile_underscoreFree d₂.reverse a₂.reverse h₂r
  have hd : d₁.reverse = d₂.reverse := by rw [← ht₁.1, ← ht₂.1, hrev]
  have ha : ('_' :: a₁.reverse) = ('_' :: a₂.reverse) := by rw [← ht₁.2, ← ht₂.2, hrev]
  refine ⟨?_, List.reverse_injective hd⟩
  have := List.cons.inj ha
  exact List.reverse_injective this.2

/-! ## Tile key derivation

From the source (leaflet.offline.js):

  initialize:  this._cacheKeyPrefix = url.replace(/\x7b[xyz]\x7d/g, '');
  _getTileKey: return `${this._cacheKeyPrefix}_${coords.z}_${coords.x}_${coords.y}`;
-/

/-- The character-level tile key: prefix, underscore, decimal z, underscore,
decimal x, underscore, decimal y (string concatenation is associative, so
the grouping is immaterial). -/
def keyChars (p : List Char) (z x y : ℕ) : List Char :=
  ((p ++ '_' :: natStr z) ++ '_' :: natStr x) ++ '_' :: natStr y

/-- Embedding of `_getTileKey`: the cache key for layer prefix `p` and tile
coordinate `(z, x, y)`. -/
def getTileKey (p : String) (z x y : ℕ) : String :=
  ⟨keyChars p.data z x y⟩

/-- Embedding of the prefix computation in `initialize`: strip every
occurrence of a coordinate placeholder (an open brace, one of the letters
x, y, z, and a close brace) from the URL template, as the global regex
replace does. -/
def stripPlaceholderChars : List Char → List Char
  | '{' :: 'x' :: '}' :: rest => stripPlaceholderChars rest
  | '{' :: 'y' :: '}' :: rest => stripPlaceholderChars rest
  | '{' :: 'z' :: '}' :: rest => stripPlaceholderChars rest
  | c :: rest => c :: stripPlaceholderChars rest
  | [] => []

/-- Embedding of `this._cacheKeyPrefix = url.replace(...)`. -/
def cacheKeyPref (url : String) : String :=
  ⟨stripPlaceholderChars url.data⟩

theorem keyChars_inj (p₁ p₂ : List Char) (z₁ x₁ y₁ z₂ x₂ y₂ : ℕ)
    (h : keyChars p₁ z₁ x₁ y₁ = keyChars p₂ z₂ x₂ y₂) :
    p₁ = p₂ ∧ z₁ = z₂ ∧ x₁ = x₂ ∧ y₁ = y₂ := by
  unfold keyChars at h
  obtain ⟨h1, hy⟩ := append_underscore_inj _ _ _ _
    (natStr_underscoreFree y₁) (natStr_underscoreFree y₂) h
  obtain ⟨h2, hx⟩ := append_underscore_inj _ _ _ _
    (natStr_underscoreFree x₁) (natStr_underscoreFree x₂) h1
  obtain ⟨h3, hz⟩ := append_underscore_inj _ _ _ _
    (natStr_underscoreFree z₁) (natStr_underscoreFree z₂) h2
  exact ⟨h3, natStr_injective _ _ hz, natStr_injective _ _ hx, natStr_injective _ _ hy⟩

theorem getTileKey_inj (p₁ p₂ : String) (z₁ x₁ y₁ z₂ x₂ y₂ : ℕ)
    (h : getTileKey p₁ z₁ x₁ y₁ = getTileKey p₂ z₂ x₂ y₂) :
    p₁ = p₂ ∧ z₁ = z₂ ∧ x₁ = x₂ ∧ y₁ = y₂ := by
  have hdata : keyChars p₁.data z₁ x₁ y₁ = keyChars p₂.data z₂ x₂ y₂ :=
    congrArg String.data h
  obtain ⟨hp, hz, hx, hy⟩ := keyChars_inj _ _ _ _ _ _ _ _ hdata
  refine ⟨?_, hz, hx, hy⟩
  cases p₁
  cases p₂
  exact congrArg String.mk hp

/-! ## Cache-aside single-tile resolve

Embedding of `createTile`, `_getTileFromCache`, `_loadTileAndCache` and
`_saveTileToCache`. The tile store (the IndexedDB object store) is a
key-to-record association list; network transfer outcomes are a function
from URL to success, fixed for the duration of one resolve. Because the
initial cache check and the on-error fallback check happen at different
times in the asynchronous source, the resolve takes two store snapshots:
one for each read. Observable side effects are collected as an event
trace. One network request is counted per distinct img-src load: the
base-class createTile sets the tile src to the network URL
unconditionally before the cache check, `_loadTileAndCache` re-assigns
that same URL to the same element (no new request), and each fresh Image
created by `_saveTileToCache` is a further request. -/

/-- A stored tile record: the persisted data URL and timestamp
(the object put into the store has fields key, url, timestamp). -/
structure Entry where
  url : String
  timestamp : ℕ
deriving DecidableEq, Repr

/-- The tile store contents: an association list from key to record. -/
abbrev Store := List (String × Entry)

/-- Observable side effects of a resolve. -/
inductive Ev
  /-- A `cacheDB.get` call for a key. -/
  | storeRead (key : String)
  /-- A network image request: an img src set to a network URL. -/
  | netFetch (url : String)
  /-- A `cacheDB.put` call for a key. -/
  | storeWrite (key : String)
deriving DecidableEq, Repr

/-- The outcome of a resolve: the tile displays from `src`, or errors. -/
inductive Res
  | ok (src : String)
  | err
deriving DecidableEq, Repr

/-- Layer options relevant to the resolve: `useCache`, `saveToCache`, and
whether `cacheDB` is non-null. -/
structure LayerOptions where
  useCache : Bool
  saveToCache : Bool
  hasCacheDB : Bool
deriving DecidableEq, Repr

/-- Embedding of `_getTileFromCache`: resolves null when no cacheDB is
configured; otherwise reads the store and yields the entry url exactly
when the entry exists and its url is truthy (non-empty). -/
def getTileFromCache (hasDB : Bool) (store : Store) (key : String) :
    Option String × List Ev :=
  if hasDB then
    (match store.lookup key with
     | some e => if e.url = "" then none else some e.url
     | none => none,
     [Ev.storeRead key])
  else (none, [])

/-- Embedding of `_saveTileToCache`: loads a fresh Image of the tile URL
(a second network request); on its load, draws it to a canvas, encodes a
data URL, and puts the record; on its error, rejects without a write. -/
def saveTileToCache (net : String → Bool) (tileUrl key : String) : List Ev :=
  Ev.netFetch tileUrl :: (if net tileUrl then [Ev.storeWrite key] else [])

/-- Embedding of `_loadTileAndCache`. Its assignment of the tile src to the
network URL re-assigns the value the base-class createTile already set, so
the display request (already modelled by the caller) is not issued again
here. Only when `saveToCache` is set and a cacheDB exists does it install
the onload handler (write-back via `_saveTileToCache`) and the onerror
handler: on a network failure that handler performs one fallback read of
the store; on a fallback miss the resolve fails, and on a fallback hit the
cached url is displayed — which fires the replaced onload again, so
`_saveTileToCache` runs and issues one further network request for the
tile URL (writing only if that load succeeds). Without those options no
handler is installed: a network failure is not retried against the store. -/
def loadTileAndCache (o : LayerOptions) (net : String → Bool)
    (fallbackStore : Store) (tileUrl key : String) : Res × List Ev :=
  if o.saveToCache && o.hasCacheDB then
    if net tileUrl then
      (Res.ok tileUrl, saveTileToCache net tileUrl key)
    else
      match getTileFromCache o.hasCacheDB fallbackStore key with
      | (some u, evs) => (Res.ok u, evs ++ saveTileToCache net tileUrl key)
      | (none, evs) => (Res.err, evs)
  else
    (if net tileUrl then Res.ok tileUrl else Res.err, [])

/-- Embedding of `createTile`. The base `L.TileLayer.prototype.createTile`
call runs unconditionally and sets the tile src to the network URL, so one
network request for the tile URL is initiated on every resolve, before the
asynchronous cache check resolves. With `useCache` set the store is then
queried: on a hit the tile src is set to the cached url (no further
request from the cache logic), on a miss `_loadTileAndCache` proceeds with
the already-in-flight display load. -/
def createTile (o : LayerOptions) (net : String → Bool)
    (store fallbackStore : Store) (tileUrl key : String) : Res × List Ev :=
  if o.useCache then
    match getTileFromCache o.hasCacheDB store key with
    | (some u, evs) => (Res.ok u, Ev.netFetch tileUrl :: evs)
    | (none, evs) =>
      let r := loadTileAndCache o net fallbackStore tileUrl key
      (r.1, Ev.netFetch tileUrl :: (evs ++ r.2))
  else
    (if net tileUrl then Res.ok tileUrl else Res.err, [Ev.netFetch tileUrl])

/-- Number of network requests in a trace. -/
def countFetches (t : List Ev) : ℕ :=
  t.countP fun e => match e with | Ev.netFetch _ => true | _ => false

/-- Number of tile store writes in a trace. -/
def countWrites (t : List Ev) : ℕ :=
  t.countP fun e => match e with | Ev.storeWrite _ => true | _ => false

/-- Number of tile store reads in a trace. -/
def countReads (t : List Ev) : ℕ :=
  t.countP fun e => match e with | Ev.storeRead _ => true | _ => false

/-- The store misses for a key: no record, or a record with a falsy
(empty) url. -/
def cacheMissB (store : Store) (key : String) : Bool :=
  match store.lookup key with
  | some e => e.url == ""
  | none => true

theorem getTileFromCache_hit (store : Store) (key : String) (e : Entry)
    (hl : store.lookup key = some e) (hu : e.url ≠ "") :
    getTileFromCache true store key = (some e.url, [Ev.storeRead key]) := by
  simp [getTileFromCache, hl, hu]

theorem getTileFromCache_miss (store : Store) (key : String)
    (hm : cacheMissB store key = true) :
    getTileFromCache true store key = (none, [Ev.storeRead key]) := by
  unfold cacheMissB at hm
  unfold getTileFromCache
  match hl : store.lookup key with
  | some e =>
    rw [hl] at hm
    simp at hm
    simp [hm]
  | none => simp

theorem getTileFromCache_snd (hasDB : Bool) (store : Store) (key : String) :
    (getTileFromCache hasDB store key).2
      = if hasDB then [Ev.storeRead key] else [] := by
  unfold getTileFromCache
  cases hasDB <;> simp

/-! ## Region-to-tile enumeration

Embedding of `_latLngToTile` and `_calculateTilesForArea`. The JS number
arithmetic (Math.tan, Math.log, Math.cos, Math.floor, Math.pow) is modelled
over the real numbers. -/

/-- One tile coordinate as the source pushes it: integer x, y and zoom. -/
structure Tile where
  x : ℤ
  y : ℤ
  z : ℕ
deriving DecidableEq, Repr

/-- A geographic bounding box with its north-east and south-west corners. -/
structure LatLngBounds where
  neLat : ℝ
  neLng : ℝ
  swLat : ℝ
  swLng : ℝ

open Real in
/-- Embedding of the x computation of `_latLngToTile`:
x = floor((lng + 180) / 360 * 2^zoom). -/
noncomputable def latLngToTileX (lng : ℝ) (zoom : ℕ) : ℤ :=
  ⌊(lng + 180) / 360 * (2 : ℝ) ^ zoom⌋

open Real in
/-- Embedding of the y computation of `_latLngToTile`:
y = floor((1 - log(tan(lat * pi / 180) + 1 / cos(lat * pi / 180)) / pi) / 2 * 2^zoom). -/
noncomputable def latLngToTileY (lat : ℝ) (zoom : ℕ) : ℤ :=
  ⌊(1 - log (tan (lat * π / 180) + 1 / cos (lat * π / 180)) / π) / 2
      * (2 : ℝ) ^ zoom⌋

/-- Embedding of the per-zoom body of `_calculateTilesForArea`: project both
corners, take the min and max tile indices on each axis, and push every
tile of the rectangle, x ascending in the outer loop and y ascending in
the inner loop. An empty range (max below min) yields no tiles, as the JS
for loop would not execute. -/
noncomputable def tilesForZoom (b : LatLngBounds) (zoom : ℕ) : List Tile :=
  let neX := latLngToTileX b.neLng zoom
  let neY := latLngToTileY b.neLat zoom
  let swX := latLngToTileX b.swLng zoom
  let swY := latLngToTileY b.swLat zoom
  let xMin := min neX swX
  let xMax := max neX swX
  let yMin := min neY swY
  let yMax := max neY swY
  (List.range (xMax - xMin + 1).toNat).flatMap fun (i : ℕ) =>
    (List.range (yMax - yMin + 1).toNat).map fun (j : ℕ) =>
      ⟨xMin + (i : ℤ), yMin + (j : ℤ), zoom⟩

/-- Embedding of `_calculateTilesForArea`: iterate the configured zoom
levels (defaulting to the two-element list [minZoom, maxZoom] when none
are configured), skipping zooms outside [minZoom, maxZoom], and
concatenate the per-zoom rectangles. -/
noncomputable def calculateTilesForArea (b : LatLngBounds)
    (minZoom maxZoom : ℕ) (zoomlevels : Option (List ℕ)) : List Tile :=
  (zoomlevels.getD [minZoom, maxZoom]).flatMap fun zoom =>
    if zoom < minZoom ∨ maxZoom < zoom then [] else tilesForZoom b zoom

open Real in
/-- The latitude, in degrees, whose Mercator y-fraction is (1 - t/pi)/2:
the inverse Gudermannian of t rescaled to degrees. At t = pi this is the
northern limit of the valid Mercator range (about 85.0511 degrees). -/
noncomputable def gdInvLat (t : ℝ) : ℝ := 180 / π * arctan (sinh t)

/-- The Mercator latitude limit, about 85.0511 degrees. -/
noncomputable def mercatorLatLimit : ℝ := gdInvLat Real.pi

/-- The bounding box spanning the whole world: longitudes -180 to 180 and
latitudes from the southern to the northern Mercator limit. -/
noncomputable def worldBounds : LatLngBounds :=
  ⟨mercatorLatLimit, 180, -mercatorLatLimit, -180⟩

open Real

theorem latLngToTileX_east (zoom : ℕ) : latLngToTileX 180 zoom = 2 ^ zoom := by
  unfold latLngToTileX
  norm_num
  rw [show ((2 : ℝ) ^ zoom) = ((2 ^ zoom : ℕ) : ℝ) by push_cast; ring]
  rw [Int.floor_natCast]
  push_cast
  ring

theorem latLngToTileX_west (zoom : ℕ) : latLngToTileX (-180) zoom = 0 := by
  unfold latLngToTileX
  norm_num

theorem latLngToTileX_zero (zoom : ℕ) :
    latLngToTileX 0 zoom = ⌊((2 : ℝ) ^ zoom) / 2⌋ := by
  unfold latLngToTileX
  norm_num
  ring_nf

/-- The angle of `gdInvLat t` in radians is `arctan (sinh t)`. -/
theorem gdInvLat_angle (t : ℝ) : gdInvLat t * π / 180 = arctan (sinh t) := by
  unfold gdInvLat
  field_simp

/-- The Mercator expression inside the log evaluates to `exp t` at
latitude `gdInvLat t`. -/
theorem tan_add_sec_gdInvLat (t : ℝ) :
    tan (gdInvLat t * π / 180) + 1 / cos (gdInvLat t * π / 180) = exp t := by
  rw [gdInvLat_angle, tan_arctan, cos_arctan]
  have h1 : (1 : ℝ) + sinh t ^ 2 = cosh t ^ 2 := by
    rw [cosh_sq]; ring
  rw [h1, sqrt_sq (cosh_pos t).le, one_div_one_div]
  exact sinh_add_cosh t

/-- The y tile index at latitude `gdInvLat t` is the floor of
(1 - t/pi)/2 * 2^zoom. -/
theorem latLngToTileY_gdInvLat (t : ℝ) (zoom : ℕ) :
    latLngToTileY (gdInvLat t) zoom = ⌊(1 - t / π) / 2 * (2 : ℝ) ^ zoom⌋ := by
  unfold latLngToTileY
  rw [tan_add_sec_gdInvLat, log_exp]

theorem neg_gdInvLat (t : ℝ) : -gdInvLat t = gdInvLat (-t) := by
  unfold gdInvLat
  rw [sinh_neg, arctan_neg]
  ring

theorem latLngToTileY_north_limit (zoom : ℕ) :
    latLngToTileY mercatorLatLimit zoom = 0 := by
  unfold mercatorLatLimit
  rw [latLngToTileY_gdInvLat]
  rw [div_self pi_ne_zero]
  norm_num

theorem latLngToTileY_south_limit (zoom : ℕ) :
    latLngToTileY (-mercatorLatLimit) zoom = 2 ^ zoom := by
  unfold mercatorLatLimit
  rw [neg_gdInvLat, latLngToTileY_gdInvLat]
  rw [show -π / π = -1 by field_simp]
  norm_num
  rw [show ((2 : ℝ) ^ zoom) = ((2 ^ zoom : ℕ) : ℝ) by push_cast; ring]
  rw [Int.floor_natCast]
  push_cast
  ring

theorem length_grid {α : Type} (m k : ℕ) (g : ℕ → ℕ → α) :
    ((List.range m).flatMap fun i => (List.range k).map fun j => g i j).length
      = m * k := by
  rw [List.length_flatMap]
  induction m with
  | zero => simp
  | succ m ih =>
    rw [List.range_succ]
    simp only [List.map_append, List.sum_append, List.map_cons, List.map_nil]
    rw [ih]
    simp
    ring

/-- The whole-world rectangle at zoom z: both axes run over the tile
indices 0 to 2^z inclusive, because longitude 180 projects to column 2^z
and the southern Mercator limit projects to row 2^z. -/
theorem tilesForZoom_world (z : ℕ) :
    tilesForZoom worldBounds z =
      (List.range (2 ^ z + 1)).flatMap fun i =>
        (List.range (2 ^ z + 1)).map fun j => ⟨(i : ℤ), (j : ℤ), z⟩ := by
  unfold tilesForZoom worldBounds
  simp only [latLngToTileX_east, latLngToTileX_west,
    latLngToTileY_north_limit, latLngToTileY_south_limit]
  have hmin : min ((2 : ℤ) ^ z) 0 = 0 := min_eq_right (by positivity)
  have hmax : max ((2 : ℤ) ^ z) 0 = (2 : ℤ) ^ z := max_eq_left (by positivity)
  have hmin2 : min (0 : ℤ) ((2 : ℤ) ^ z) = 0 := min_eq_left (by positivity)
  have hmax2 : max (0 : ℤ) ((2 : ℤ) ^ z) = (2 : ℤ) ^ z := max_eq_right (by positivity)
  rw [hmin, hmax, hmin2, hmax2]
  have htn : ((2 : ℤ) ^ z - 0 + 1).toNat = 2 ^ z + 1 := by
    rw [show (2 : ℤ) ^ z - 0 + 1 = ((2 ^ z + 1 : ℕ) : ℤ) by push_cast; ring,
      Int.toNat_natCast]
  rw [htn]
  simp only [zero_add]

theorem tilesForZoom_world_length (z : ℕ) :
    (tilesForZoom worldBounds z).length = (2 ^ z + 1) ^ 2 := by
  rw [tilesForZoom_world, length_grid, sq]

/-- A region whose latitudes, at gdInvLat t for t beyond pi, lie outside
the valid Mercator range; its longitudes run from -180 to 0. -/
noncomputable def beyondMercatorRegion (t : ℝ) : LatLngBounds :=
  ⟨gdInvLat t, 0, -gdInvLat t, -180⟩

theorem latLngToTileX_zero_z0 : latLngToTileX 0 0 = 0 := by
  unfold latLngToTileX
  norm_num

theorem latLngToTileY_beyond_north (t : ℝ) (ht : π < t) :
    latLngToTileY (gdInvLat t) 0 < 0 := by
  rw [latLngToTileY_gdInvLat]
  have hπ : (0 : ℝ) < π := pi_pos
  have h1 : t / π > 1 := (one_lt_div hπ).mpr ht
  have hneg : (1 - t / π) / 2 * (2 : ℝ) ^ (0 : ℕ) < 0 := by
    simp only [pow_zero, mul_one]
    linarith
  exact_mod_cast Int.floor_lt.mpr (by exact_mod_cast hneg)

theorem latLngToTileY_beyond_south (t : ℝ) (ht : π < t) :
    1 ≤ latLngToTileY (-gdInvLat t) 0 := by
  rw [neg_gdInvLat, latLngToTileY_gdInvLat]
  have hπ : (0 : ℝ) < π := pi_pos
  have h1 : t / π > 1 := (one_lt_div hπ).mpr ht
  apply Int.le_floor.mpr
  have : (1 - -t / π) / 2 * (2 : ℝ) ^ (0 : ℕ) = (1 + t / π) / 2 := by
    simp only [pow_zero, mul_one]
    ring
  rw [this]
  push_cast
  linarith

theorem gdInvLat_strictMono (s t : ℝ) (h : s < t) : gdInvLat s < gdInvLat t := by
  unfold gdInvLat
  have h1 : arctan (sinh s) < arctan (sinh t) :=
    arctan_strictMono (Real.sinh_lt_sinh.mpr h)
  have h2 : (0 : ℝ) < 180 / π := by positivity
  exact mul_lt_mul_of_pos_left h1 h2

theorem latLngToTileY_2pi_north : latLngToTileY (gdInvLat (2 * π)) 0 = -1 := by
  rw [latLngToTileY_gdInvLat]
  rw [show 2 * π / π = 2 by field_simp]
  norm_num

theorem latLngToTileY_2pi_south : latLngToTileY (-gdInvLat (2 * π)) 0 = 1 := by
  rw [neg_gdInvLat, latLngToTileY_gdInvLat]
  rw [show -(2 * π) / π = -2 by field_simp]
  norm_num

/-- At zoom 0, the region extending past the Mercator latitude limit in
both directions and from longitude -180 to 0 yields the tile column x = 0
with rows y = -1, 0, 1: out-of-range y indices are produced. -/
theorem tilesForZoom_beyond2pi :
    tilesForZoom (beyondMercatorRegion (2 * π)) 0
      = [⟨0, -1, 0⟩, ⟨0, 0, 0⟩, ⟨0, 1, 0⟩] := by
  unfold tilesForZoom beyondMercatorRegion
  simp only [latLngToTileX_zero_z0, latLngToTileX_west,
    latLngToTileY_2pi_north, latLngToTileY_2pi_south]
  decide

/-- For any latitude beyond the Mercator limit, the zoom-0 rectangle of
`_calculateTilesForArea` contains a tile with a negative y index: the
enumeration silently produces out-of-range coordinates instead of failing. -/
theorem tilesForZoom_beyond_mem (t : ℝ) (ht : π < t) :
    ∃ tile ∈ tilesForZoom (beyondMercatorRegion t) 0, tile.y < 0 := by
  have hN : latLngToTileY (gdInvLat t) 0 < 0 := latLngToTileY_beyond_north t ht
  have hS : 1 ≤ latLngToTileY (-gdInvLat t) 0 := latLngToTileY_beyond_south t ht
  unfold tilesForZoom beyondMercatorRegion
  simp only [latLngToTileX_zero_z0, latLngToTileX_west]
  set a := latLngToTileY (gdInvLat t) 0 with ha
  set b := latLngToTileY (-gdInvLat t) 0 with hb
  have hmin : min a b = a := min_eq_left (by omega)
  have hmax : max a b = b := max_eq_right (by omega)
  rw [hmin, hmax]
  refine ⟨⟨min 0 0 + ((0 : ℕ) : ℤ), a + ((0 : ℕ) : ℤ), 0⟩, ?_, ?_⟩
  · apply List.mem_flatMap.mpr
    refine ⟨0, ?_, ?_⟩
    · apply List.mem_range.mpr
      omega
    · apply List.mem_map.mpr
      refine ⟨0, ?_, rfl⟩
      apply List.mem_range.mpr
      omega
  · simpa using hN

/-! ## Batch tile saving

Embedding of `_saveTilesImpl`. Each enumerated tile independently runs an
image load, a canvas conversion, and a store put; its completion outcome
is one of: success (the put resolved), a put rejection, a processing
exception, or an image load error. The shared counter and the emitted
events evolve per completion, in completion order: a successful save
increments the counter, fires a progress event with the rounded
percentage, and fires the complete event exactly when the counter reaches
the total; every failure outcome only increments the counter. -/

/-- The completion outcome of one tile inside `_saveTilesImpl`. -/
inductive TileOutcome
  /-- The image loaded, the canvas conversion succeeded, the put resolved. -/
  | success
  /-- The image failed to load (img.onerror). -/
  | loadError
  /-- The canvas conversion threw (the catch block). -/
  | processError
  /-- The store put rejected (the .catch handler). -/
  | putError
deriving DecidableEq, Repr

/-- Events fired on the base layer during a save job. -/
inductive SaveEvent
  | savestart (total progressPct : ℕ)
  | saveprogress (total progressPct : ℕ)
  | savecomplete (total : ℕ)
deriving DecidableEq, Repr

/-- Math.round(count / total * 100) for nonnegative count and total:
floor of (100 count / total) + 1/2. -/
def roundPct (count total : ℕ) : ℕ := (200 * count + total) / (2 * total)

/-- One tile completion of `_saveTilesImpl`: the counter always
increments; only a fully successful save fires events. -/
def processOutcome (total : ℕ) (st : ℕ × List SaveEvent) (o : TileOutcome) :
    ℕ × List SaveEvent :=
  match o with
  | TileOutcome.success =>
    let c := st.1 + 1
    (c, st.2 ++ [SaveEvent.saveprogress total (roundPct c total)]
      ++ (if c = total then [SaveEvent.savecomplete total] else []))
  | _ => (st.1 + 1, st.2)

/-- Embedding of a `_saveTilesImpl` run over the per-tile outcomes in
completion order: the savestart event fires first with progress 0, then
each tile completion updates the counter and the event list. -/
def saveTilesRun (total : ℕ) (outcomes : List TileOutcome) :
    ℕ × List SaveEvent :=
  outcomes.foldl (processOutcome total)
    (0, [SaveEvent.savestart total (roundPct 0 total)])

/-- Number of saveprogress events in an event list. -/
def countProgressEvents (evs : List SaveEvent) : ℕ :=
  evs.countP fun e => match e with | SaveEvent.saveprogress _ _ => true | _ => false

/-- Number of success outcomes in an outcome list. -/
def countSuccesses (os : List TileOutcome) : ℕ :=
  os.countP fun o => match o with | TileOutcome.success => true | _ => false

theorem saveTilesRun_foldl_invariant (total : ℕ) (os : List TileOutcome) :
    ∀ c evs, (os.foldl (processOutcome total) (c, evs)).1 = c + os.length
      ∧ countProgressEvents (os.foldl (processOutcome total) (c, evs)).2
          = countProgressEvents evs + countSuccesses os := by
  induction os with
  | nil => intro c evs; simp [countSuccesses]
  | cons o os ih =>
    intro c evs
    cases o with
    | success =>
      have h := ih (c + 1)
        (evs ++ [SaveEvent.saveprogress total (roundPct (c + 1) total)]
          ++ (if c + 1 = total then [SaveEvent.savecomplete total] else []))
      constructor
      · rw [List.foldl_cons]
        rw [show processOutcome total (c, evs) TileOutcome.success
            = (c + 1, evs ++ [SaveEvent.saveprogress total (roundPct (c + 1) total)]
              ++ (if c + 1 = total then [SaveEvent.savecomplete total] else []))
          from rfl]
        rw [h.1]
        simp
        omega
      · rw [List.foldl_cons]
        rw [show processOutcome total (c, evs) TileOutcome.success
            = (c + 1, evs ++ [SaveEvent.saveprogress total (roundPct (c + 1) total)]
              ++ (if c + 1 = total then [SaveEvent.savecomplete total] else []))
          from rfl]
        rw [h.2]
        unfold countProgressEvents countSuccesses
        rw [List.countP_append, List.countP_append]
        by_cases hc : c + 1 = total <;> simp [hc] <;> omega
    | loadError =>
      have h := ih (c + 1) evs
      constructor
      · rw [List.foldl_cons]
        rw [show processOutcome total (c, evs) TileOutcome.loadError = (c + 1, evs)
          from rfl]
        rw [h.1]
        simp
        omega
      · rw [List.foldl_cons]
        rw [show processOutcome total (c, evs) TileOutcome.loadError = (c + 1, evs)
          from rfl]
        rw [h.2]
        unfold countSuccesses
        simp
    | processError =>
      have h := ih (c + 1) evs
      constructor
      · rw [List.foldl_cons]
        rw [show processOutcome total (c, evs) TileOutcome.processError = (c + 1, evs)
          from rfl]
        rw [h.1]
        simp
        omega
      · rw [List.foldl_cons]
        rw [show processOutcome total (c, evs) TileOutcome.processError = (c + 1, evs)
          from rfl]
        rw [h.2]
        unfold countSuccesses
        simp
    | putError =>
      have h := ih (c + 1) evs
      constructor
      · rw [List.foldl_cons]
        rw [show processOutcome total (c, evs) TileOutcome.putError = (c + 1, evs)
          from rfl]
        rw [h.1]
        simp
        omega
      · rw [List.foldl_cons]
        rw [show processOutcome total (c, evs) TileOutcome.putError = (c + 1, evs)
          from rfl]
        rw [h.2]
        unfold countSuccesses
        simp

/-- When the last tile to complete is a successful save, the complete
event (carrying only the total) is the last event fired. -/
theorem saveTilesRun_last_success (total : ℕ) (os : List TileOutcome)
    (h1 : os.length = total) (h2 : os.getLast? = some TileOutcome.success) :
    (saveTilesRun total os).2.getLast? = some (SaveEvent.savecomplete total) := by
  rcases List.getLast?_eq_some_iff.mp h2 with ⟨l, hl⟩
  subst hl
  unfold saveTilesRun
  rw [List.foldl_append]
  have hinv := saveTilesRun_foldl_invariant total l 0
    [SaveEvent.savestart total (roundPct 0 total)]
  set st := List.foldl (processOutcome total) (0,
    [SaveEvent.savestart total (roundPct 0 total)]) l with hst
  have hc : st.1 = l.length := by
    rw [(hinv).1]
    omega
  have hctotal : st.1 + 1 = total := by
    rw [hc]
    simp at h1
    omega
  show (List.foldl (processOutcome total) st [TileOutcome.success]).2.getLast?
    = some (SaveEvent.savecomplete total)
  rw [List.foldl_cons, List.foldl_nil]
  show (processOutcome total st TileOutcome.success).2.getLast?
    = some (SaveEvent.savecomplete total)
  unfold processOutcome
  simp only [hctotal, if_pos]
  rw [List.getLast?_concat]

/-! ## The IndexedDB manager

Embedding of `L.TileLayer.DBManager.open`: a cached handle is returned
as-is without touching the backend; otherwise, with no IndexedDB on the
platform the call rejects, and with IndexedDB present the backend open
request runs once, caching the handle on success. -/

/-- The manager state: database name and the cached handle (null before
the first successful open). Handles are modelled as numbers. -/
structure DBManager where
  dbName : String
  dbHandle : Option ℕ
deriving DecidableEq, Repr

/-- The platform facts the open path consults: whether window.indexedDB
exists and whether the backend open request succeeds. -/
structure Platform where
  indexedDBAvailable : Bool
  openSucceeds : Bool
deriving DecidableEq, Repr

/-- Embedding of `DBManager.open`. Returns the result, the new manager
state, and the number of backend open requests issued. -/
def openDB (m : DBManager) (p : Platform) (newHandle : ℕ) :
    Except String ℕ × DBManager × ℕ :=
  match m.dbHandle with
  | some d => (Except.ok d, m, 0)
  | none =>
    if p.indexedDBAvailable = false then
      (Except.error "IndexedDB not supported", m, 0)
    else if p.openSucceeds then
      (Except.ok newHandle, { m with dbHandle := some newHandle }, 1)
    else
      (Except.error "Error opening IndexedDB", m, 1)

/-! ## Claim theorems -/

/-- Claim C1: tile key encoding is deterministic and injective. Computing
the key twice for the same (layerId, coord) yields identical keys, and any
two pairs that differ in layerId (with distinct stripped URL templates,
per the configuration precondition) or differ in any of z, x, y derive
different keys. -/
theorem claim_C1 (u₁ u₂ : String) (z₁ x₁ y₁ z₂ x₂ y₂ : ℕ) :
    getTileKey (cacheKeyPref u₁) z₁ x₁ y₁ = getTileKey (cacheKeyPref u₁) z₁ x₁ y₁
    ∧ ((cacheKeyPref u₁ ≠ cacheKeyPref u₂ ∨ z₁ ≠ z₂ ∨ x₁ ≠ x₂ ∨ y₁ ≠ y₂) →
        getTileKey (cacheKeyPref u₁) z₁ x₁ y₁ ≠ getTileKey (cacheKeyPref u₂) z₂ x₂ y₂) := by
  refine ⟨rfl, fun hd he => ?_⟩
  obtain ⟨hp, hz, hx, hy⟩ := getTileKey_inj _ _ _ _ _ _ _ _ he
  rcases hd with h | h | h | h
  · exact h hp
  · exact h hz
  · exact h hx
  · exact h hy

/-- Witness for C1, at the two tile URL templates of the repository: the
stripped prefixes differ, so the keys of the same coordinate differ. -/
theorem claim_C1_witness :
    getTileKey (cacheKeyPref "https://mt1.google.com/vt/lyrs=s&x={x}&y={y}&z={z}") 3 2 1
      ≠ getTileKey (cacheKeyPref "https://a.tile.openstreetmap.org/{z}/{x}/{y}.png") 3 2 1 :=
  (claim_C1 "https://mt1.google.com/vt/lyrs=s&x={x}&y={y}&z={z}"
    "https://a.tile.openstreetmap.org/{z}/{x}/{y}.png" 3 2 1 3 2 1).2
    (Or.inl (by decide))

theorem countWrites_loadTileAndCache_disabled (o : LayerOptions)
    (net : String → Bool) (fallbackStore : Store) (tileUrl key : String)
    (hoff : o.saveToCache = false ∨ o.hasCacheDB = false) :
    countWrites (loadTileAndCache o net fallbackStore tileUrl key).2 = 0 := by
  have hand : (o.saveToCache && o.hasCacheDB) = false := by
    rcases hoff with h | h <;> simp [h]
  unfold loadTileAndCache
  rw [hand]
  simp only [Bool.false_eq_true, if_false]
  by_cases hn : net tileUrl = true <;> simp [hn, countWrites]

theorem countWrites_createTile_disabled (o : LayerOptions) (net : String → Bool)
    (store fallbackStore : Store) (tileUrl key : String)
    (hoff : o.saveToCache = false ∨ o.hasCacheDB = false) :
    countWrites (createTile o net store fallbackStore tileUrl key).2 = 0 := by
  have hld : countWrites (loadTileAndCache o net fallbackStore tileUrl key).2 = 0 :=
    countWrites_loadTileAndCache_disabled o net fallbackStore tileUrl key hoff
  unfold createTile
  by_cases huse : o.useCache = true
  · rw [huse]
    rcases hg : getTileFromCache o.hasCacheDB store key with ⟨f, evs⟩
    have hevs : countWrites evs = 0 := by
      have h2 : evs = (getTileFromCache o.hasCacheDB store key).2 := by rw [hg]
      rw [h2, getTileFromCache_snd]
      cases o.hasCacheDB <;> rfl
    rcases f with _ | u
    · show countWrites (Ev.netFetch tileUrl ::
          (evs ++ (loadTileAndCache o net fallbackStore tileUrl key).2)) = 0
      unfold countWrites at hevs hld ⊢
      rw [List.countP_cons, List.countP_append, hevs, hld]
      simp
    · show countWrites (Ev.netFetch tileUrl :: evs) = 0
      unfold countWrites at hevs ⊢
      rw [List.countP_cons, hevs]
      simp
  · simp only [Bool.not_eq_true] at huse
    rw [huse]
    simp only [Bool.false_eq_true, if_false]
    by_cases hn : net tileUrl = true <;> simp [hn, countWrites]

theorem createTile_miss (o : LayerOptions) (net : String → Bool)
    (store fallbackStore : Store) (tileUrl key : String)
    (huse : o.useCache = true) (hdb : o.hasCacheDB = true)
    (hmiss : cacheMissB store key = true) :
    createTile o net store fallbackStore tileUrl key
      = ((loadTileAndCache o net fallbackStore tileUrl key).1,
         Ev.netFetch tileUrl :: Ev.storeRead key ::
           (loadTileAndCache o net fallbackStore tileUrl key).2) := by
  have hg : getTileFromCache o.hasCacheDB store key = (none, [Ev.storeRead key]) := by
    rw [hdb]
    exact getTileFromCache_miss store key hmiss
  unfold createTile
  rw [huse, hg]
  rfl

theorem createTile_hit (o : LayerOptions) (net : String → Bool)
    (store fallbackStore : Store) (tileUrl key : String) (e : Entry)
    (huse : o.useCache = true) (hdb : o.hasCacheDB = true)
    (hl : store.lookup key = some e) (hu : e.url ≠ "") :
    createTile o net store fallbackStore tileUrl key
      = (Res.ok e.url, [Ev.netFetch tileUrl, Ev.storeRead key]) := by
  have hg : getTileFromCache o.hasCacheDB store key
      = (some e.url, [Ev.storeRead key]) := by
    rw [hdb]
    exact getTileFromCache_hit store key e hl hu
  unfold createTile
  rw [huse, hg]
  rfl

theorem loadTileAndCache_netok (o : LayerOptions) (net : String → Bool)
    (fallbackStore : Store) (tileUrl key : String)
    (hsave : o.saveToCache = true) (hdb : o.hasCacheDB = true)
    (hnet : net tileUrl = true) :
    loadTileAndCache o net fallbackStore tileUrl key
      = (Res.ok tileUrl, [Ev.netFetch tileUrl, Ev.storeWrite key]) := by
  unfold loadTileAndCache saveTileToCache
  rw [hsave, hdb, hnet]
  simp

theorem loadTileAndCache_netfail (o : LayerOptions) (net : String → Bool)
    (fallbackStore : Store) (tileUrl key : String)
    (hsave : o.saveToCache = true) (hdb : o.hasCacheDB = true)
    (hnet : net tileUrl = false) :
    (∀ e, fallbackStore.lookup key = some e → e.url ≠ "" →
        loadTileAndCache o net fallbackStore tileUrl key
          = (Res.ok e.url, [Ev.storeRead key, Ev.netFetch tileUrl]))
    ∧ (cacheMissB fallbackStore key = true →
        loadTileAndCache o net fallbackStore tileUrl key
          = (Res.err, [Ev.storeRead key])) := by
  unfold loadTileAndCache
  rw [hsave, hdb, hnet]
  constructor
  · intro e hl hu
    have hg : getTileFromCache true fallbackStore key
        = (some e.url, [Ev.storeRead key]) :=
      getTileFromCache_hit fallbackStore key e hl hu
    rw [hg]
    simp [saveTileToCache, hnet]
  · intro hm
    have hg : getTileFromCache true fallbackStore key = (none, [Ev.storeRead key]) :=
      getTileFromCache_miss fallbackStore key hm
    rw [hg]
    simp

/-- Counterexample to claim C2: the unconditional base-class
createTile call (line 20) sets the tile src to the network URL before the
asynchronous cache check resolves, so a resolve whose key is present and
non-empty in the store still initiates one network request for the tile
URL — and, the resolve leaving the store unchanged, does so again
identically on every re-run. -/
theorem claim_C2_counterexample :
    createTile ⟨true, true, true⟩ (fun _ => true)
        [("k", ⟨"data:png", 7⟩)] [] "u" "k"
      = (Res.ok "data:png", [Ev.netFetch "u", Ev.storeRead "k"])
    ∧ countFetches (createTile ⟨true, true, true⟩ (fun _ => true)
        [("k", ⟨"data:png", 7⟩)] [] "u" "k").2 = 1 := by
  constructor <;> decide

/-- Claim C2 as amended: on a cache hit the cached bytes are returned and
the caching logic itself performs no network request and no store write;
the only request in the trace is the single unconditional base-class load
of the tile URL, which every resolve, re-runs included, issues before the
cache check resolves. The store is unchanged, so a re-run behaves
identically. -/
theorem claim_C2_amended (store fallbackStore : Store) (net : String → Bool)
    (o : LayerOptions) (tileUrl key : String) (e : Entry)
    (huse : o.useCache = true) (hdb : o.hasCacheDB = true)
    (hl : store.lookup key = some e) (hu : e.url ≠ "") :
    createTile o net store fallbackStore tileUrl key
      = (Res.ok e.url, [Ev.netFetch tileUrl, Ev.storeRead key])
    ∧ countFetches (createTile o net store fallbackStore tileUrl key).2 = 1
    ∧ countWrites (createTile o net store fallbackStore tileUrl key).2 = 0 := by
  have hmain := createTile_hit o net store fallbackStore tileUrl key e huse hdb hl hu
  refine ⟨hmain, ?_, ?_⟩ <;> rw [hmain] <;> rfl

/-- Witness for the amended C2 at a store holding one record. -/
theorem claim_C2_amended_witness :
    createTile ⟨true, true, true⟩ (fun _ => false)
        [("k2", ⟨"data:tile2", 9⟩)] [] "u2" "k2"
      = (Res.ok "data:tile2", [Ev.netFetch "u2", Ev.storeRead "k2"])
    ∧ countFetches (createTile ⟨true, true, true⟩ (fun _ => false)
        [("k2", ⟨"data:tile2", 9⟩)] [] "u2" "k2").2 = 1
    ∧ countWrites (createTile ⟨true, true, true⟩ (fun _ => false)
        [("k2", ⟨"data:tile2", 9⟩)] [] "u2" "k2").2 = 0 :=
  claim_C2_amended [("k2", ⟨"data:tile2", 9⟩)] [] (fun _ => false)
    ⟨true, true, true⟩ "u2" "k2" ⟨"data:tile2", 9⟩ rfl rfl (by decide) (by decide)

/-- Claim C3: with useCache on, a single resolve performs exactly one
store write when write-back (saveToCache with a cacheDB) is enabled, the
key misses, and the fetch succeeds; zero writes when write-back is
disabled; and zero writes on a cache hit. -/
theorem claim_C3 (store : Store) (net : String → Bool) (o : LayerOptions)
    (tileUrl key : String) (huse : o.useCache = true) :
    (o.saveToCache = true → o.hasCacheDB = true → cacheMissB store key = true →
      net tileUrl = true →
      countWrites (createTile o net store store tileUrl key).2 = 1)
    ∧ (o.saveToCache = false ∨ o.hasCacheDB = false →
      countWrites (createTile o net store store tileUrl key).2 = 0)
    ∧ (∀ e, o.hasCacheDB = true → store.lookup key = some e → e.url ≠ "" →
      countWrites (createTile o net store store tileUrl key).2 = 0) := by
  refine ⟨?_, ?_, ?_⟩
  · intro hsave hdb hmiss hnet
    rw [createTile_miss o net store store tileUrl key huse hdb hmiss,
      loadTileAndCache_netok o net store tileUrl key hsave hdb hnet]
    rfl
  · intro hoff
    exact countWrites_createTile_disabled o net store store tileUrl key hoff
  · intro e hdb hl hu
    rw [createTile_hit o net store store tileUrl key e huse hdb hl hu]
    rfl

/-- Witness for C3: cold store, write-back on, fetch succeeds: one write. -/
theorem claim_C3_witness :
    countWrites (createTile ⟨true, true, true⟩ (fun _ => true) [] [] "u" "k").2 = 1 :=
  (claim_C3 [] (fun _ => true) ⟨true, true, true⟩ "u" "k" rfl).1 rfl rfl rfl rfl

/-- Counterexample to claim C4: a resolve with useCache on but write-back
off (saveToCache false), whose network fetch fails while the store by then
holds the tile. No onerror handler is installed, so no fallback store read
occurs (the only store read in the trace is the initial check, made before
the fetch) and the resolve fails, although a fallback read would have hit. -/
theorem claim_C4_counterexample :
    createTile ⟨true, false, true⟩ (fun _ => false) []
        [("k", ⟨"data:png", 7⟩)] "u" "k"
      = (Res.err, [Ev.netFetch "u", Ev.storeRead "k"])
    ∧ ([("k", (⟨"data:png", 7⟩ : Entry))] : Store).lookup "k"
        = some ⟨"data:png", 7⟩ := by
  constructor <;> decide

/-- Claim C4 as amended: only when write-back is enabled (saveToCache set
and a cacheDB configured) does a failed network fetch trigger exactly one
fallback TileStore read. On a fallback miss the resolve fails. On a
fallback hit the cached bytes are returned and no error surfaces, but
displaying the cached url re-fires the replaced onload handler, so the
cache-save path runs and issues one further network request for the tile
URL (which, the URL still failing to load, stores nothing). -/
theorem claim_C4_amended (store1 store2 : Store) (net : String → Bool)
    (o : LayerOptions) (tileUrl key : String)
    (huse : o.useCache = true) (hsave : o.saveToCache = true)
    (hdb : o.hasCacheDB = true) (hnet : net tileUrl = false)
    (hmiss : cacheMissB store1 key = true) :
    (∀ e, store2.lookup key = some e → e.url ≠ "" →
        createTile o net store1 store2 tileUrl key
          = (Res.ok e.url,
             [Ev.netFetch tileUrl, Ev.storeRead key, Ev.storeRead key,
              Ev.netFetch tileUrl]))
    ∧ (cacheMissB store2 key = true →
        createTile o net store1 store2 tileUrl key
          = (Res.err, [Ev.netFetch tileUrl, Ev.storeRead key, Ev.storeRead key])) := by
  have hct := createTile_miss o net store1 store2 tileUrl key huse hdb hmiss
  have hlf := loadTileAndCache_netfail o net store2 tileUrl key hsave hdb hnet
  constructor
  · intro e hl hu
    rw [hct, hlf.1 e hl hu]
  · intro hm
    rw [hct, hlf.2 hm]

/-- Witness for the amended C4: write-back enabled, fetch fails, the
fallback read hits: the cached bytes are returned and the re-fired save
path issues one further (failing) request. -/
theorem claim_C4_amended_witness :
    createTile ⟨true, true, true⟩ (fun _ => false) []
        [("k", ⟨"data:png", 7⟩)] "u" "k"
      = (Res.ok "data:png",
         [Ev.netFetch "u", Ev.storeRead "k", Ev.storeRead "k", Ev.netFetch "u"]) :=
  (claim_C4_amended [] [("k", ⟨"data:png", 7⟩)] (fun _ => false)
    ⟨true, true, true⟩ "u" "k" rfl rfl rfl rfl rfl).1
    ⟨"data:png", 7⟩ (by decide) (by decide)

/-- Counterexample to claim C5: for the bounding box spanning the whole
world, enumeration at zoom 0 returns four tiles, not exactly the one tile
(0,0,0): the north-east corner (latitude at the Mercator limit, longitude
180) projects to tile (1,1) at zoom 0, one past the valid range on both
axes. -/
theorem claim_C5_counterexample :
    calculateTilesForArea worldBounds 0 19 (some [0])
      = [⟨0, 0, 0⟩, ⟨0, 1, 0⟩, ⟨1, 0, 0⟩, ⟨1, 1, 0⟩]
    ∧ (calculateTilesForArea worldBounds 0 19 (some [0])).length = 4 := by
  have h : calculateTilesForArea worldBounds 0 19 (some [0])
      = [⟨0, 0, 0⟩, ⟨0, 1, 0⟩, ⟨1, 0, 0⟩, ⟨1, 1, 0⟩] := by
    unfold calculateTilesForArea
    simp only [Option.getD_some]
    rw [List.flatMap_cons, List.flatMap_nil]
    norm_num
    rw [tilesForZoom_world 0]
    decide
  exact ⟨h, by rw [h]; rfl⟩

/-- Claim C5 as amended: for the whole-world bounding box, enumeration at
a zoom level z within [minZoom, maxZoom] yields (2^z + 1)^2 tiles, the
extra row and column being the out-of-range indices x = 2^z and y = 2^z
that longitude 180 and the southern Mercator limit project to; zoom levels
outside [minZoom, maxZoom] contribute no tiles. -/
theorem claim_C5_amended (z minZoom maxZoom : ℕ)
    (h1 : minZoom ≤ z) (h2 : z ≤ maxZoom) :
    (calculateTilesForArea worldBounds minZoom maxZoom (some [z])).length
      = (2 ^ z + 1) ^ 2
    ∧ ∀ z2, z2 < minZoom ∨ maxZoom < z2 →
        calculateTilesForArea worldBounds minZoom maxZoom (some [z2]) = [] := by
  constructor
  · unfold calculateTilesForArea
    simp only [Option.getD_some]
    rw [List.flatMap_cons, List.flatMap_nil]
    rw [if_neg (by omega)]
    rw [List.append_nil]
    exact tilesForZoom_world_length z
  · intro z2 hz2
    unfold calculateTilesForArea
    simp only [Option.getD_some]
    rw [List.flatMap_cons, List.flatMap_nil]
    rw [if_pos hz2]
    rfl

/-- Witness for the amended C5 at zoom 1 with the default zoom bounds:
the whole-world box yields (2^1 + 1)^2 = 9 tiles. -/
theorem claim_C5_amended_witness :
    (calculateTilesForArea worldBounds 0 19 (some [1])).length = (2 ^ 1 + 1) ^ 2 :=
  (claim_C5_amended 1 0 19 (by decide) (by decide)).1

/-- Counterexample to claim C6: a region whose latitudes (about 89.8
degrees, beyond the Mercator limit) are invalid does not fail enumeration:
it yields tiles with out-of-range y indices, y = -1 and y = 1 at zoom 0,
with no InvalidRegion error anywhere in the code. -/
theorem claim_C6_counterexample :
    calculateTilesForArea (beyondMercatorRegion (2 * Real.pi)) 0 19 (some [0])
      = [⟨0, -1, 0⟩, ⟨0, 0, 0⟩, ⟨0, 1, 0⟩]
    ∧ mercatorLatLimit < (beyondMercatorRegion (2 * Real.pi)).neLat := by
  constructor
  · unfold calculateTilesForArea
    simp only [Option.getD_some]
    rw [List.flatMap_cons, List.flatMap_nil]
    norm_num
    rw [tilesForZoom_beyond2pi]
  · show mercatorLatLimit < gdInvLat (2 * Real.pi)
    unfold mercatorLatLimit
    exact gdInvLat_strictMono Real.pi (2 * Real.pi) (by linarith [Real.pi_pos])

/-- Claim C6 as amended: for every region whose latitude extends beyond
the Mercator limit (gdInvLat t for any t past pi), zoom-0 enumeration
does not fail; it produces a tile with a negative (out-of-range) y index. -/
theorem claim_C6_amended (t : ℝ) (ht : Real.pi < t) :
    ∃ tile ∈ calculateTilesForArea (beyondMercatorRegion t) 0 19 (some [0]),
      tile.y < 0 := by
  obtain ⟨tile, hmem, hy⟩ := tilesForZoom_beyond_mem t ht
  refine ⟨tile, ?_, hy⟩
  unfold calculateTilesForArea
  simp only [Option.getD_some]
  rw [List.flatMap_cons, List.flatMap_nil]
  norm_num
  exact hmem

/-- Witness for the amended C6 at t = 2 pi (latitude about 89.8 degrees). -/
theorem claim_C6_amended_witness :
    ∃ tile ∈ calculateTilesForArea (beyondMercatorRegion (2 * Real.pi)) 0 19
      (some [0]), tile.y < 0 :=
  claim_C6_amended (2 * Real.pi) (by linarith [Real.pi_pos])

/-- Counterexample to claim C7: a single-tile job whose tile fails to load
completes the tile (the counter reaches 1) but emits no progress event at
all: only the initial savestart event is ever fired. -/
theorem claim_C7_counterexample :
    saveTilesRun 1 [TileOutcome.loadError] = (1, [SaveEvent.savestart 1 0])
    ∧ countProgressEvents (saveTilesRun 1 [TileOutcome.loadError]).2 = 0 := by
  constructor <;> decide

/-- Claim C7 as amended: every completed tile (success or failure)
increments the completed counter, but only successfully stored tiles emit
a progress event: the number of saveprogress events equals the number of
successes, not the number of completions. -/
theorem claim_C7_amended (total : ℕ) (os : List TileOutcome) :
    (saveTilesRun total os).1 = os.length
    ∧ countProgressEvents (saveTilesRun total os).2 = countSuccesses os := by
  have h := saveTilesRun_foldl_invariant total os 0
    [SaveEvent.savestart total (roundPct 0 total)]
  unfold saveTilesRun
  constructor
  · rw [h.1]
    omega
  · rw [h.2]
    simp [countProgressEvents]

/-- Counterexample to claim C8: a two-tile job whose second completion is
a failure reaches completed = total = 2 yet never emits a complete event;
moreover the savecomplete event the code can emit carries only the total,
never succeeded or failed counts (no such counters exist in the code). -/
theorem claim_C8_counterexample :
    saveTilesRun 2 [TileOutcome.success, TileOutcome.loadError]
      = (2, [SaveEvent.savestart 2 0, SaveEvent.saveprogress 2 50]) := by
  decide

/-- Claim C8 as amended: the savecomplete event, carrying only the total,
is emitted exactly when the counter reaches the total inside a successful
save callback; when the last tile to complete succeeded, it is the final
event of the job. -/
theorem claim_C8_amended (total : ℕ) (os : List TileOutcome)
    (h1 : os.length = total) (h2 : os.getLast? = some TileOutcome.success) :
    (saveTilesRun total os).2.getLast? = some (SaveEvent.savecomplete total) :=
  saveTilesRun_last_success total os h1 h2

/-- Witness for the amended C8: a one-tile job ending in success emits
savestart, saveprogress, savecomplete, in that order. -/
theorem claim_C8_amended_witness :
    (saveTilesRun 1 [TileOutcome.success]).2.getLast?
      = some (SaveEvent.savecomplete 1) :=
  claim_C8_amended 1 [TileOutcome.success] (by decide) (by decide)

/-- Claim C9: the open operation is idempotent: with a cached handle it
returns that handle without touching the backend, a successful fresh open
caches its handle so a repeat open issues no further backend request, and
with no IndexedDB on the platform it fails with the unsupported error. -/
theorem claim_C9 (m : DBManager) (p p2 : Platform) (h1 h2 : ℕ) :
    (∀ d, m.dbHandle = some d → openDB m p h1 = (Except.ok d, m, 0))
    ∧ (∀ m2 n2, openDB m p h1 = (Except.ok n2, m2, 1) →
        openDB m2 p2 h2 = (Except.ok n2, m2, 0))
    ∧ (m.dbHandle = none → p.indexedDBAvailable = false →
        openDB m p h1 = (Except.error "IndexedDB not supported", m, 0)) := by
  refine ⟨?_, ?_, ?_⟩
  · intro d hd
    unfold openDB
    rw [hd]
  · intro m2 n2 hopen
    unfold openDB at hopen
    match hm : m.dbHandle with
    | some d =>
      rw [hm] at hopen
      simp at hopen
    | none =>
      rw [hm] at hopen
      by_cases hav : p.indexedDBAvailable = false
      · rw [if_pos hav] at hopen
        simp at hopen
      · rw [if_neg hav] at hopen
        by_cases hok : p.openSucceeds = true
        · rw [if_pos hok] at hopen
          have hn2 : n2 = h1 := by
            have hfst := congrArg (fun x => x.1) hopen
            simp at hfst
            exact hfst.symm
          have hm2 : m2 = { m with dbHandle := some h1 } := by
            have hsnd := congrArg (fun x => x.2.1) hopen
            simp at hsnd
            exact hsnd.symm
          subst hn2
          subst hm2
          unfold openDB
          rfl
        · simp only [Bool.not_eq_true] at hok
          rw [hok] at hopen
          simp at hopen
  · intro hnone hav
    unfold openDB
    rw [hnone, if_pos hav]

/-- Witness for C9: a manager with a cached handle returns it unchanged
with no backend open, and a fresh manager on a platform without IndexedDB
fails with the unsupported error. -/
theorem claim_C9_witness :
    openDB ⟨"leaflet_offline_tiles", some 5⟩ ⟨true, true⟩ 9
      = (Except.ok 5, ⟨"leaflet_offline_tiles", some 5⟩, 0)
    ∧ openDB ⟨"leaflet_offline_tiles", none⟩ ⟨false, true⟩ 9
      = (Except.error "IndexedDB not supported", ⟨"leaflet_offline_tiles", none⟩, 0) :=
  ⟨(claim_C9 ⟨"leaflet_offline_tiles", some 5⟩ ⟨true, true⟩ ⟨true, true⟩ 9 9).1 5 rfl,
    (claim_C9 ⟨"leaflet_offline_tiles", none⟩ ⟨false, true⟩ ⟨true, true⟩ 9 9).2.2 rfl rfl⟩

/-- Claim C10: a cache-miss resolve with write-back enabled and a
successful fetch requests the tile URL over the network twice: once for
display (the base-class load initiated before the cache check, whose URL
the load-and-cache path re-assigns to the same element), and a second time
inside the cache-save path, which loads a fresh Image of the same URL
before encoding and persisting it. -/
theorem claim_C10 (store : Store) (net : String → Bool) (tileUrl key : String)
    (hmiss : cacheMissB store key = true) (hnet : net tileUrl = true) :
    countFetches (createTile ⟨true, true, true⟩ net store store tileUrl key).2 = 2
    ∧ (createTile ⟨true, true, true⟩ net store store tileUrl key).2
      = [Ev.netFetch tileUrl, Ev.storeRead key, Ev.netFetch tileUrl,
         Ev.storeWrite key] := by
  have hct := createTile_miss ⟨true, true, true⟩ net store store tileUrl key
    rfl rfl hmiss
  have hld := loadTileAndCache_netok ⟨true, true, true⟩ net store tileUrl key
    rfl rfl hnet
  have htrace : (createTile ⟨true, true, true⟩ net store store tileUrl key).2
      = [Ev.netFetch tileUrl, Ev.storeRead key, Ev.netFetch tileUrl,
         Ev.storeWrite key] := by
    rw [hct, hld]
  exact ⟨by rw [htrace]; rfl, htrace⟩

/-- Witness for C10 on a cold store with a succeeding network. -/
theorem claim_C10_witness :
    countFetches (createTile ⟨true, true, true⟩ (fun _ => true) [] [] "u" "k").2 = 2 :=
  (claim_C10 [] (fun _ => true) "u" "k" rfl rfl).1

end TileCache
